import Mathlib

/-!
Verification of the DALI coalescing memory-pool allocator
(`dali/core/mm/pool_resource.h`): a shallow embedding of
`pool_resource_base` and `deferred_dealloc_pool` together with proofs of
the specified properties.

Modelling conventions:
* pointers are `Nat` addresses, `0` is the null pointer;
* the free list is a type parameter with an explicit record of operations
  (`FreeListOps`), mirroring the `FreeList` template parameter;
* the upstream resource is a state machine (`Env`): `alloc` may fail
  (`none` models `std::bad_alloc`), `dealloc` returns memory,
  `flush` models the virtual `flush_deferred` hook and `record_fails`
  models a `push_back` failure when recording a new upstream block;
* `size_t` values are `Nat`; the `float` growth factor is an exact
  rational, with the `size_t`-truncating product modelled by integer
  arithmetic;
* the retry loop of `get_upstream_block` is written with explicit fuel; a
  theorem shows that a computable amount of fuel always suffices, which is
  the termination argument for the source loop.
-/

namespace DaliMM

/-- Sync scope, from `enum class sync_scope`. -/
inductive sync_scope where
  | none
  | device
  | system
deriving DecidableEq

/-- Deallocation parameters, from `struct dealloc_params`:
`sync_device == -1` means "current device". -/
structure dealloc_params where
  sync_device : Int
  ptr : Nat
  bytes : Nat
  alignment : Nat
deriving DecidableEq

/-- Pool options, from `struct pool_options`.  `growth_factor` is a `float`
in the source; it is modelled as an exact rational number. -/
structure pool_options where
  max_block_size : Nat
  min_block_size : Nat
  growth_factor : ℚ
  try_smaller_on_failure : Bool
  return_to_upstream_on_failure : Bool
  sync : sync_scope
  enable_deferred_deallocation : Bool
  max_outstanding_deallocations : Nat
  upstream_alignment : Nat

/-- An upstream block record, from `struct UpstreamBlock`. -/
structure UpstreamBlock where
  ptr : Nat
  bytes : Nat
  alignment : Nat
deriving DecidableEq

/-- The free-list external contract (the `FreeList` template parameter):
`get` extracts a region satisfying the request or returns `none`, `put`
inserts (coalescing), `remove_if_in_list` removes an exactly matching
region, reporting whether it was present. -/
structure FreeListOps (φ : Type) where
  get : φ → Nat → Nat → Option Nat × φ
  put : φ → Nat → Nat → φ
  remove_if_in_list : φ → Nat → Nat → Bool × φ

/-- The upstream resource and the ambient effects of the pool, as a state
machine over a state type `σ`.  `alloc` returns `none` on allocation
failure (`std::bad_alloc`); `flush` is the `flush_deferred` virtual hook
invoked on failure; `record_fails` tells whether `blocks_.push_back`
throws in the state reached right after a successful upstream
allocation. -/
structure Env (σ : Type) where
  alloc : σ → Nat → Nat → Option (Nat × σ)
  dealloc : σ → Nat → Nat → Nat → σ
  flush : σ → σ
  record_fails : σ → Bool

/-- The mutable state of `pool_resource_base`: the free list, the list of
owned upstream blocks (`blocks_`), the growth cursor
(`next_block_size_`) and the environment state. -/
structure PoolState (φ σ : Type) where
  free_list_ : φ
  blocks_ : List UpstreamBlock
  next_block_size_ : Nat
  env : σ
deriving DecidableEq

/-- Floor base-2 logarithm.  Modelled from the spec: `ilog2` lives in
`dali/core/util.h`, which is not part of the sources; the spec describes
it as the integer binary logarithm used in `ilog2(actual) - 10`. -/
def ilog2Aux : Nat → Nat → Nat
  | 0, _ => 0
  | fuel + 1, n => if n ≤ 1 then 0 else ilog2Aux fuel (n / 2) + 1

/-- Floor base-2 logarithm entry point. -/
def ilog2 (n : Nat) : Nat := ilog2Aux n n

/-- Round `x` up to a multiple of `a`.  Modelled from the spec: `align_up`
lives in `dali/core/util.h`, which is not part of the sources; the spec
describes it as rounding up to the (power-of-two) alignment. -/
def align_up (x a : Nat) : Nat := (x + a - 1) / a * a

/-- The product `next_block_size_ * growth_factor` converted back to
`size_t`.  In C++ this is a `size_t`-by-`float` product truncated toward
zero; with the factor an exact rational `q`, the truncated product of a
nonnegative integer is `(n * q.num).toNat / q.den`. -/
def growth_mul (n : Nat) (q : ℚ) : Nat := ((n : Int) * q.num).toNat / q.den

/-- `pool_resource_base::next_block_size`: grow the cursor, align the
request, cap the stored cursor, return the uncapped aligned size. -/
def next_block_size {φ σ : Type} (opts : pool_options) (st : PoolState φ σ)
    (upcoming_allocation_size : Nat) : Nat × PoolState φ σ :=
  let actual0 := Nat.max upcoming_allocation_size
    (growth_mul st.next_block_size_ opts.growth_factor)
  let alignment := 1 <<< (Int.toNat (max ((ilog2 actual0 : Int) - 10) 12))
  let actual := align_up actual0 alignment
  (actual, { st with next_block_size_ := Nat.min actual opts.max_block_size })

/-- The two ways an allocation can fail: `badAlloc` models
`std::bad_alloc` propagated from upstream, `recordFail` the exception
thrown by `blocks_.push_back` when recording a new block. -/
inductive AllocError where
  | badAlloc
  | recordFail
deriving DecidableEq

/-- Result of `get_upstream_block`: on success the pointer, the final
`blk_size` (an out parameter in the source) and the state; on failure the
error and the state at the throw point.  The last field counts the
reclaim passes performed (`tried_return_to_upstream` transitions). -/
inductive GubOut (φ σ : Type) where
  | ok : Nat → Nat → PoolState φ σ → Nat → GubOut φ σ
  | err : AllocError → PoolState φ σ → Nat → GubOut φ σ
deriving DecidableEq

/-- Number of reclaim passes performed during the call. -/
def GubOut.reclaims {φ σ : Type} : GubOut φ σ → Nat
  | .ok _ _ _ r => r
  | .err _ _ r => r

/-- The pool state at the point the call returned or threw. -/
def GubOut.state {φ σ : Type} : GubOut φ σ → PoolState φ σ
  | .ok _ _ st _ => st
  | .err _ st _ => st

/-- The forward scan of the reclaim pass: for each owned block, call
`free_list_.remove_if_in_list(blk.ptr, blk.bytes)` and record whether it
was removed (`removed[i]` in the source); returns the flagged block list
and the resulting free list. -/
def scanBlocks {φ : Type} (ops : FreeListOps φ) :
    List UpstreamBlock → φ → List (UpstreamBlock × Bool) × φ
  | [], fl => ([], fl)
  | b :: rest, fl =>
    let step := ops.remove_if_in_list fl b.ptr b.bytes
    let tail := scanBlocks ops rest step.2
    ((b, step.1) :: tail.1, tail.2)

/-- The retry loop body of `pool_resource_base::get_upstream_block`,
with explicit fuel.  Arguments after the fuel: current state, current
`blk_size`, the `tried_return_to_upstream` flag, and the running count of
reclaim passes. -/
def gubLoop {φ σ : Type} (ops : FreeListOps φ) (env : Env σ)
    (opts : pool_options) (min_bytes alignment : Nat) :
    Nat → PoolState φ σ → Nat → Bool → Nat → Option (GubOut φ σ)
  | 0, _, _, _, _ => none
  | fuel + 1, st, blk_size, tried, r =>
    match env.alloc st.env blk_size alignment with
    | some (new_block, u) =>
      -- loop exited; record the block in `blocks_`, returning it to
      -- upstream if the recording itself fails
      if env.record_fails u then
        some (.err .recordFail
          { st with env := env.dealloc u new_block blk_size alignment } r)
      else
        some (.ok new_block blk_size
          { st with env := u,
                    blocks_ := st.blocks_ ++ [⟨new_block, blk_size, alignment⟩] } r)
    | none =>
      -- std::bad_alloc caught: flush deferred deallocations first
      let st1 := { st with env := env.flush st.env }
      if !opts.try_smaller_on_failure then some (.err .badAlloc st1 r)
      else if blk_size = min_bytes then
        if tried || !opts.return_to_upstream_on_failure then
          some (.err .badAlloc st1 r)
        else if st1.blocks_.isEmpty then some (.err .badAlloc st1 r)
        else
          -- reclaim pass: remove wholly-free blocks from the free list,
          -- then return them to upstream in reverse index order
          let scan := scanBlocks ops st1.blocks_ st1.free_list_
          let freed := (scan.1.filter (fun bb => bb.2)).map (fun bb => bb.1)
          if freed.isEmpty then
            some (.err .badAlloc { st1 with free_list_ := scan.2 } r)
          else
            let u := freed.reverse.foldl
              (fun e b => env.dealloc e b.ptr b.bytes b.alignment) st1.env
            let kept := (scan.1.filter (fun bb => !bb.2)).map (fun bb => bb.1)
            let blk' := Nat.max min_bytes (blk_size >>> 1)
            gubLoop ops env opts min_bytes alignment fuel
              ⟨scan.2, kept, blk', u⟩ blk' true (r + 1)
      else
        let blk' := Nat.max min_bytes (blk_size >>> 1)
        gubLoop ops env opts min_bytes alignment fuel
          { st1 with next_block_size_ := blk' } blk' tried r

/-- `pool_resource_base::get_upstream_block`: compute the initial
`blk_size` with `next_block_size` and run the retry loop. -/
def get_upstream_block {φ σ : Type} (ops : FreeListOps φ) (env : Env σ)
    (opts : pool_options) (fuel : Nat) (st : PoolState φ σ)
    (min_bytes alignment : Nat) : Option (GubOut φ σ) :=
  let first := next_block_size opts st min_bytes
  gubLoop ops env opts min_bytes alignment fuel first.2 first.1 false 0

/-- Result of `do_allocate`: the returned pointer (`none` models the null
pointer) and the state, or the propagated error and the state. -/
inductive AllocOut (φ σ : Type) where
  | ok : Option Nat → PoolState φ σ → AllocOut φ σ
  | err : AllocError → PoolState φ σ → AllocOut φ σ
deriving DecidableEq

/-- The pool state carried by an allocation outcome. -/
def AllocOut.state {φ σ : Type} : AllocOut φ σ → PoolState φ σ
  | .ok _ st => st
  | .err _ st => st

/-- `pool_resource_base::do_allocate`: return null for zero bytes, try the
free list, then acquire an upstream block, keeping an exact-fit block
unsplit and pushing the tail of an oversized block into the free list. -/
def do_allocate {φ σ : Type} (ops : FreeListOps φ) (env : Env σ)
    (opts : pool_options) (fuel : Nat) (bytes alignment : Nat)
    (st : PoolState φ σ) : Option (AllocOut φ σ) :=
  if bytes = 0 then some (.ok none st)
  else
    let hit := ops.get st.free_list_ bytes alignment
    let st1 := { st with free_list_ := hit.2 }
    match hit.1 with
    | some ptr => some (.ok (some ptr) st1)
    | none =>
      let alignment := Nat.max alignment opts.upstream_alignment
      match get_upstream_block ops env opts fuel st1 bytes alignment with
      | none => none
      | some (.err e st' _) => some (.err e st')
      | some (.ok new_block blk_size st' _) =>
        if blk_size = bytes then
          -- exact fit: return the block as-is
          some (.ok (some new_block) st')
        else
          -- oversized: the remainder goes to the free list
          some (.ok (some new_block)
            { st' with free_list_ :=
                ops.put st'.free_list_ (new_block + bytes) (blk_size - bytes) })

/-- `pool_resource_base::try_allocate_from_free`. -/
def try_allocate_from_free {φ σ : Type} (ops : FreeListOps φ)
    (bytes alignment : Nat) (st : PoolState φ σ) :
    Option Nat × PoolState φ σ :=
  if bytes = 0 then (none, st)
  else
    let hit := ops.get st.free_list_ bytes alignment
    (hit.1, { st with free_list_ := hit.2 })

/-- `pool_resource_base::deallocate_no_sync`. -/
def deallocate_no_sync {φ σ : Type} (ops : FreeListOps φ)
    (ptr bytes : Nat) (st : PoolState φ σ) : PoolState φ σ :=
  { st with free_list_ := ops.put st.free_list_ ptr bytes }

/-! ### Bulk synchronization (`pool_resource_base::synchronize(span)`) -/

/-- Resolution of a `sync_device` field: negative values mean the current
device (`cudaGetDevice`). -/
def resolveDev (current : Int) (d : Int) : Int := if d < 0 then current else d

/-- The device-scope loop of `synchronize(span<const dealloc_params>)`:
walks the batch keeping the 256-entry bitset (modelled as the list of
device ids already recorded in `dev_mask`) and the last synchronized
device `prev`; returns the devices synchronized, in order.  A device below
`kMaxDevices = 256` is skipped when its mask bit is set (the bit is set
right before synchronizing); a device at or above 256 is skipped only when
it equals `prev`. -/
def syncDeviceGo (current : Int) :
    List dealloc_params → List Int → Int → List Int → List Int
  | [], _, _, acc => acc.reverse
  | par :: rest, dev_mask, prev, acc =>
    let dev := resolveDev current par.sync_device
    if dev < 256 then
      if dev_mask.contains dev then syncDeviceGo current rest dev_mask prev acc
      else syncDeviceGo current rest (dev :: dev_mask) dev (dev :: acc)
    else if dev = prev then syncDeviceGo current rest dev_mask prev acc
    else syncDeviceGo current rest dev_mask dev (dev :: acc)

/-- The devices synchronized by the device-scope branch of
`synchronize(span)`, in order of synchronization.  The initial `prev` is
`-1` and the bitset is empty. -/
def syncDeviceList (current : Int) (params : List dealloc_params) : List Int :=
  syncDeviceGo current params [] (-1) []

/-- First-occurrence deduplication of a list (specification-side notion of
"each distinct device exactly once, in order of first appearance"). -/
def dedupFirstAux : List Int → List Int → List Int
  | [], _ => []
  | d :: rest, seen =>
    if seen.contains d then dedupFirstAux rest seen
    else d :: dedupFirstAux rest (d :: seen)

/-- First-occurrence deduplication, starting from nothing seen. -/
def dedupFirst (l : List Int) : List Int := dedupFirstAux l []

/-! ### Deferred deallocation (`deferred_dealloc_pool`) -/

/-- The queue state of the deferred deallocator.  The source keeps two
queues `deallocs_[0/1]` with a cursor `queue_idx_`; producers append to
`deallocs_[queue_idx_]` (`active`) while the worker drains the other queue
(`inflight`, empty whenever the worker is idle). -/
structure DefQueues where
  active : List dealloc_params
  inflight : List dealloc_params
  started_ : Bool
deriving DecidableEq

/-- `deferred_dealloc_pool::outstanding_dealloc_count`:
`deallocs_[0].size() + deallocs_[1].size()`. -/
def outstanding_dealloc_count (q : DefQueues) : Nat :=
  q.active.length + q.inflight.length

/-- `deferred_dealloc_pool::no_pending_deallocs`. -/
def no_pending_deallocs (q : DefQueues) : Bool :=
  q.active.isEmpty && q.inflight.isEmpty

/-- `deferred_dealloc_pool::deferred_deallocate`: ignore null pointers and
zero sizes, resolve the device, append to the active queue and start the
worker if needed. -/
def deferred_deallocate (current : Int) (ptr bytes alignment : Nat)
    (device_id : Int) (q : DefQueues) : DefQueues :=
  if ptr = 0 || bytes = 0 then q
  else
    let dev := resolveDev current device_id
    { q with active := q.active ++ [⟨dev, ptr, bytes, alignment⟩],
             started_ := true }

/-- `deferred_dealloc_pool::flush_deferred`, as its effect on the queues.
If both queues are empty it returns immediately (second component
`false`: no worker interaction).  Otherwise it waits for one `ready_`
notification, which the worker emits after completing one batch: the
in-flight batch if one is being drained, otherwise the active queue
(which the worker swaps out and drains).  The second component records
that the call blocked on the worker. -/
def flush_deferred_model (q : DefQueues) : DefQueues × Bool :=
  if no_pending_deallocs q then (q, false)
  else if q.inflight.isEmpty then ({ q with active := [] }, true)
  else ({ q with inflight := [] }, true)

/-- Lift an upstream environment to a pool whose state also carries the
deferred queues: the `flush_deferred` hook now drains one batch, the
other operations leave the queues untouched. -/
def liftEnv {σ : Type} (env : Env σ) : Env (σ × DefQueues) where
  alloc := fun p s a =>
    match env.alloc p.1 s a with
    | none => none
    | some (ptr, u) => some (ptr, (u, p.2))
  dealloc := fun p ptr b a => (env.dealloc p.1 ptr b a, p.2)
  flush := fun p => (p.1, (flush_deferred_model p.2).1)
  record_fails := fun p => env.record_fails p.1

/-- `deferred_dealloc_pool::do_allocate`: when deferred deallocation is
enabled and the outstanding count exceeds the threshold, flush once, then
delegate to the base `do_allocate` (whose failure-path `flush_deferred`
calls also drain batches, via `liftEnv`). -/
def deferred_do_allocate {φ σ : Type} (ops : FreeListOps φ) (env : Env σ)
    (opts : pool_options) (fuel : Nat) (bytes alignment : Nat)
    (st : PoolState φ (σ × DefQueues)) : Option (AllocOut φ (σ × DefQueues)) :=
  let st1 :=
    if opts.enable_deferred_deallocation
        && decide (opts.max_outstanding_deallocations
                     < outstanding_dealloc_count st.env.2) then
      { st with env := (st.env.1, (flush_deferred_model st.env.2).1) }
    else st
  do_allocate ops (liftEnv env) opts fuel bytes alignment st1

/-! ### The wait predicate of the worker (`deferred_dealloc_pool::run`) -/

/-- The condition-variable wait predicate of the worker exactly as written in
the source: `return !stopped_ || deallocs_[queue_idx_].empty();`. -/
def worker_wait_predicate (stopped_ queue_empty : Bool) : Bool :=
  !stopped_ || queue_empty

/-- Modelled from the spec: the intended wait predicate — wake when
`stopped` is set or when the current queue is non-empty. -/
def spec_wait_predicate (stopped_ queue_empty : Bool) : Bool :=
  stopped_ || !queue_empty

/-! ### Concrete instances used to run the model on literal inputs -/

/-- A simple first-fit list free list: a legal instance of the free-list
contract, used to evaluate the model on concrete inputs. -/
def listFreeList : FreeListOps (List (Nat × Nat)) where
  get := fun fl bytes _ =>
    match fl.find? (fun r => decide (bytes ≤ r.2)) with
    | none => (none, fl)
    | some r => (some r.1, fl.erase r)
  put := fun fl ptr bytes => (ptr, bytes) :: fl
  remove_if_in_list := fun fl ptr bytes =>
    if (ptr, bytes) ∈ fl then (true, fl.erase (ptr, bytes)) else (false, fl)

/-- An upstream that always fails. -/
def failEnv : Env Unit where
  alloc := fun _ _ _ => none
  dealloc := fun u _ _ _ => u
  flush := fun u => u
  record_fails := fun _ => false

/-- An upstream that always succeeds at a fixed base address; the state
logs every `deallocate` call as `(ptr, bytes, alignment)`. -/
def okEnv (base : Nat) : Env (List (Nat × Nat × Nat)) where
  alloc := fun s _ _ => some (base, s)
  dealloc := fun s p b a => (p, b, a) :: s
  flush := fun s => s
  record_fails := fun _ => false

/-- An upstream that always succeeds at a fixed base address but whose
block recording (`blocks_.push_back`) always throws; deallocations are
logged in the state. -/
def recordFailEnv (base : Nat) : Env (List (Nat × Nat × Nat)) where
  alloc := fun s _ _ => some (base, s)
  dealloc := fun s p b a => (p, b, a) :: s
  flush := fun s => s
  record_fails := fun _ => true

/-! ### Helper lemmas about `align_up` -/

theorem align_up_dvd (x a : Nat) : a ∣ align_up x a :=
  dvd_mul_left a ((x + a - 1) / a)

theorem align_up_ge (x a : Nat) (ha : 0 < a) : x ≤ align_up x a := by
  unfold align_up
  have h2 := Nat.div_add_mod (x + a - 1) a
  have hm : (x + a - 1) % a < a := Nat.mod_lt _ ha
  have hq : a * ((x + a - 1) / a) = x + a - 1 - (x + a - 1) % a :=
    Nat.eq_sub_of_add_eq h2
  calc x = x + a - 1 - (a - 1) := by omega
    _ ≤ x + a - 1 - (x + a - 1) % a := by omega
    _ = a * ((x + a - 1) / a) := hq.symm
    _ = (x + a - 1) / a * a := Nat.mul_comm _ _

theorem align_up_lt (x a : Nat) (ha : 0 < a) : align_up x a < x + a := by
  unfold align_up
  have h2 := Nat.div_add_mod (x + a - 1) a
  have hq : a * ((x + a - 1) / a) ≤ x + a - 1 := by omega
  calc (x + a - 1) / a * a = a * ((x + a - 1) / a) := Nat.mul_comm _ _
    _ ≤ x + a - 1 := hq
    _ < x + a := by omega

theorem shiftLeft_one_pos (k : Nat) : 0 < 1 <<< k := by
  rw [Nat.shiftLeft_eq, Nat.one_mul]
  exact Nat.pos_pow_of_pos k (by norm_num)

/-! ### C3: growth-cursor mechanics -/

/-- C3: `next_block_size(upcoming)` computes
`actual = max(upcoming, next_block_size * growth_factor)`, aligns it up to
the power-of-two alignment `A = 1 << max(ilog2(actual) - 10, 12)` (the
result is a multiple of `A`, at least `actual` and less than
`actual + A`), stores `next_block_size = min(actual, max_block_size)` and
returns the uncapped aligned value. -/
theorem c3_next_block_size {φ σ : Type} (opts : pool_options)
    (st : PoolState φ σ) (upcoming actual0 A : Nat)
    (ha : actual0 = Nat.max upcoming
      (growth_mul st.next_block_size_ opts.growth_factor))
    (hA : A = 1 <<< (Int.toNat (max ((ilog2 actual0 : Int) - 10) 12))) :
    (next_block_size opts st upcoming).1 = align_up actual0 A ∧
    A ∣ (next_block_size opts st upcoming).1 ∧
    actual0 ≤ (next_block_size opts st upcoming).1 ∧
    (next_block_size opts st upcoming).1 < actual0 + A ∧
    (next_block_size opts st upcoming).2 =
      { st with next_block_size_ :=
          Nat.min (next_block_size opts st upcoming).1 opts.max_block_size } := by
  subst ha hA
  have hpos := shiftLeft_one_pos
    (Int.toNat (max ((ilog2 (Nat.max upcoming
      (growth_mul st.next_block_size_ opts.growth_factor)) : Int) - 10) 12))
  exact ⟨rfl, align_up_dvd _ _, align_up_ge _ _ hpos, align_up_lt _ _ hpos, rfl⟩

/-- Witness for C3 at concrete inputs: `upcoming = 100`, cursor `4096`,
growth factor `2`.  There `actual = max(100, 8192) = 8192`,
`ilog2 8192 = 13`, so `A = 4096` and the result is `8192`. -/
theorem c3_next_block_size_witness :
    (8192 = Nat.max 100 (growth_mul 4096 (2 : ℚ)) ∧
     4096 = 1 <<< (Int.toNat (max ((ilog2 8192 : Int) - 10) 12))) ∧
    (next_block_size
        ⟨2 ^ 28, 4096, (2 : ℚ), true, true, .none, false, 16, 256⟩
        (⟨([] : List (Nat × Nat)), [], 4096, ()⟩ : PoolState (List (Nat × Nat)) Unit)
        100).1 = align_up 8192 4096 :=
  ⟨⟨by decide, by decide⟩,
    (c3_next_block_size _ _ 100 8192 4096 (by decide) (by decide)).1⟩

/-! ### C4: the wait predicate of the worker -/

/-- C4: the claim states the wait predicate is true exactly when the
`stopped` flag is set or the current queue is non-empty; the predicate as
written in the source (`!stopped_ || deallocs_[queue_idx_].empty()`)
disagrees with that at both witnessing inputs: with `stopped = false` and
an empty queue the source predicate is `true` (the worker wakes up and
busy-loops) while the claimed predicate is `false`, and with
`stopped = true` and a non-empty queue the source predicate is `false`
(the worker keeps waiting despite the stop request) while the claimed
predicate is `true`. -/
theorem c4_wait_predicate_divergence :
    worker_wait_predicate false true = true ∧
    spec_wait_predicate false true = false ∧
    worker_wait_predicate true false = false ∧
    spec_wait_predicate true false = true := by decide

/-! ### C9: null/zero handling -/

/-- C9: `allocate(0, alignment)` returns the null pointer with the state
(free list, blocks, upstream) untouched; `try_allocate_from_free(0, _)`
returns null without consulting the free list; and at the deferred layer
a deallocation of a null pointer or of zero bytes is a no-op. -/
theorem c9_null_zero {φ σ : Type} (ops : FreeListOps φ) (env : Env σ)
    (opts : pool_options) :
    (∀ (fuel alignment : Nat) (st : PoolState φ σ),
      do_allocate ops env opts fuel 0 alignment st = some (.ok none st)) ∧
    (∀ (alignment : Nat) (st : PoolState φ σ),
      try_allocate_from_free ops 0 alignment st = (none, st)) ∧
    (∀ (current : Int) (bytes alignment : Nat) (dev : Int) (q : DefQueues),
      deferred_deallocate current 0 bytes alignment dev q = q) ∧
    (∀ (current : Int) (ptr alignment : Nat) (dev : Int) (q : DefQueues),
      deferred_deallocate current ptr 0 alignment dev q = q) := by
  refine ⟨fun fuel alignment st => ?_, fun alignment st => ?_,
    fun current bytes alignment dev q => ?_,
    fun current ptr alignment dev q => ?_⟩
  · simp [do_allocate]
  · simp [try_allocate_from_free]
  · simp [deferred_deallocate]
  · simp [deferred_deallocate]

/-! ### C10: `flush_deferred` on empty queues -/

/-- C10: when both deferred queues are empty, `flush_deferred` returns
immediately (no worker interaction, flag `false`) and leaves the state
unchanged; calling it again in that state has the same null effect. -/
theorem c10_flush_deferred_idempotent (q : DefQueues)
    (h : no_pending_deallocs q = true) :
    flush_deferred_model q = (q, false) ∧
    flush_deferred_model (flush_deferred_model q).1 = (q, false) := by
  constructor
  · simp [flush_deferred_model, h]
  · simp [flush_deferred_model, h]

/-- Witness for C10: the empty-queue state. -/
theorem c10_flush_deferred_idempotent_witness :
    no_pending_deallocs ⟨[], [], false⟩ = true ∧
    flush_deferred_model ⟨[], [], false⟩ = (⟨[], [], false⟩, false) :=
  ⟨by decide, (c10_flush_deferred_idempotent ⟨[], [], false⟩ (by decide)).1⟩

/-- Concrete options mirroring `default_host_pool_opts()`:
`max_block_size = 2^28`, `min_block_size = 4096`, growth factor 2, both
retry options on, no sync, no deferred deallocation. -/
def optsHost : pool_options :=
  ⟨2 ^ 28, 4096, (2 : ℚ), true, true, .none, false, 16, 256⟩

/-! ### C8: shrink and pin on upstream failure -/

/-- C8: when the upstream allocation fails, `try_smaller_on_failure` is
set and `blk_size > min_bytes`, the loop retries with
`blk_size = max(min_bytes, blk_size >> 1)` (which is the integer half
floored at `min_bytes`) and pins `next_block_size_` to that same shrunken
value in the state it retries from. -/
theorem c8_shrink_on_failure {φ σ : Type} (ops : FreeListOps φ) (env : Env σ)
    (opts : pool_options) (min_bytes alignment fuel : Nat)
    (st : PoolState φ σ) (blk_size : Nat) (tried : Bool) (r : Nat)
    (hfail : env.alloc st.env blk_size alignment = none)
    (hsmaller : opts.try_smaller_on_failure = true)
    (hgt : min_bytes < blk_size) :
    gubLoop ops env opts min_bytes alignment (fuel + 1) st blk_size tried r =
      gubLoop ops env opts min_bytes alignment fuel
        { st with env := env.flush st.env,
                  next_block_size_ := Nat.max min_bytes (blk_size >>> 1) }
        (Nat.max min_bytes (blk_size >>> 1)) tried r ∧
    Nat.max min_bytes (blk_size >>> 1) = Nat.max min_bytes (blk_size / 2) := by
  have hne : ¬ blk_size = min_bytes := by omega
  constructor
  · simp [gubLoop, hfail, hsmaller, hne]
  · rw [Nat.shiftRight_one]

/-- Witness for C8: an always-failing upstream asked for 8192 bytes with
`min_bytes = 4096` retries at `max(4096, 8192 >> 1) = 4096` with the
cursor pinned to 4096. -/
theorem c8_shrink_on_failure_witness :
    failEnv.alloc () 8192 256 = none ∧ optsHost.try_smaller_on_failure = true ∧
    4096 < 8192 ∧
    gubLoop listFreeList failEnv optsHost 4096 256 6
        (⟨[], [], 8192, ()⟩ : PoolState (List (Nat × Nat)) Unit) 8192 false 0 =
      gubLoop listFreeList failEnv optsHost 4096 256 5
        ⟨[], [], Nat.max 4096 (8192 >>> 1), ()⟩ (Nat.max 4096 (8192 >>> 1)) false 0 :=
  ⟨rfl, rfl, by decide,
    (c8_shrink_on_failure listFreeList failEnv optsHost 4096 256 5
      ⟨[], [], 8192, ()⟩ 8192 false 0 rfl rfl (by decide)).1⟩

/-! ### C7: bookkeeping failure returns the block to upstream -/

/-- C7: when the upstream allocation succeeds but recording the new block
in the owned-blocks list fails, the loop returns the block to upstream
(the final environment is `dealloc` applied to the fresh block) and
propagates the error; the owned-blocks list is unchanged. -/
theorem c7_record_failure {φ σ : Type} (ops : FreeListOps φ) (env : Env σ)
    (opts : pool_options) (min_bytes alignment fuel : Nat)
    (st : PoolState φ σ) (blk_size : Nat) (tried : Bool) (r : Nat)
    (new_block : Nat) (u : σ)
    (halloc : env.alloc st.env blk_size alignment = some (new_block, u))
    (hrec : env.record_fails u = true) :
    gubLoop ops env opts min_bytes alignment (fuel + 1) st blk_size tried r =
      some (.err .recordFail
        { st with env := env.dealloc u new_block blk_size alignment } r) ∧
    ({ st with env := env.dealloc u new_block blk_size alignment } :
        PoolState φ σ).blocks_ = st.blocks_ := by
  constructor
  · simp [gubLoop, halloc, hrec]
  · rfl

/-- Witness for C7: an upstream yielding block 4096 whose recording always
fails; the loop reports the record failure, logs the deallocation of
exactly that block and leaves the (empty) owned-blocks list unchanged. -/
theorem c7_record_failure_witness :
    (recordFailEnv 4096).alloc [] 4096 256 = some (4096, []) ∧
    (recordFailEnv 4096).record_fails [] = true ∧
    gubLoop listFreeList (recordFailEnv 4096) optsHost 4096 256 1
        (⟨[], [], 4096, []⟩ : PoolState (List (Nat × Nat)) (List (Nat × Nat × Nat)))
        4096 false 0 =
      some (.err .recordFail ⟨[], [], 4096, [(4096, 4096, 256)]⟩ 0) :=
  ⟨rfl, rfl,
    (c7_record_failure listFreeList (recordFailEnv 4096) optsHost 4096 256 0
      ⟨[], [], 4096, []⟩ 4096 false 0 4096 [] rfl rfl).1⟩

/-! ### C1: exact fit is returned unsplit, oversized blocks leave a tail -/

/-- C1: an `allocate(bytes, alignment)` call with `bytes > 0` that misses
the free list and acquires an upstream block of size `blk_size` returns
the block pointer; if `blk_size == bytes` nothing is inserted into the
free list, and if `blk_size > bytes` the region
`(block + bytes, blk_size - bytes)` is inserted. -/
theorem c1_allocate_tail {φ σ : Type} (ops : FreeListOps φ) (env : Env σ)
    (opts : pool_options) (fuel bytes alignment : Nat) (st : PoolState φ σ)
    (fl1 : φ) (new_block blk_size : Nat) (st' : PoolState φ σ) (r : Nat)
    (hbytes : 0 < bytes)
    (hmiss : ops.get st.free_list_ bytes alignment = (none, fl1))
    (hgub : get_upstream_block ops env opts fuel { st with free_list_ := fl1 }
      bytes (Nat.max alignment opts.upstream_alignment) =
        some (.ok new_block blk_size st' r)) :
    (blk_size = bytes →
      do_allocate ops env opts fuel bytes alignment st =
        some (.ok (some new_block) st')) ∧
    (bytes < blk_size →
      do_allocate ops env opts fuel bytes alignment st =
        some (.ok (some new_block)
          { st' with free_list_ :=
              ops.put st'.free_list_ (new_block + bytes) (blk_size - bytes) })) := by
  have hb0 : ¬ bytes = 0 := by omega
  constructor
  · intro he
    simp [do_allocate, hb0, hmiss, hgub, he]
  · intro hlt
    have hne : ¬ blk_size = bytes := by omega
    simp [do_allocate, hb0, hmiss, hgub, hne]

/-- Witness for C1 (oversized case, matching the tail-retention
scenario): allocating 100 bytes from an empty pool acquires a 4096-byte
upstream block at 10000; the pointer 10000 is returned and the tail
`(10100, 3996)` is inserted into the free list. -/
theorem c1_allocate_tail_witness :
    0 < 100 ∧
    listFreeList.get [] 100 8 = (none, []) ∧
    get_upstream_block listFreeList (okEnv 10000) optsHost 1
        (⟨[], [], 0, []⟩ : PoolState (List (Nat × Nat)) (List (Nat × Nat × Nat)))
        100 (Nat.max 8 optsHost.upstream_alignment) =
      some (.ok 10000 4096 ⟨[], [⟨10000, 4096, 256⟩], 4096, []⟩ 0) ∧
    do_allocate listFreeList (okEnv 10000) optsHost 1 100 8
        (⟨[], [], 0, []⟩ : PoolState (List (Nat × Nat)) (List (Nat × Nat × Nat))) =
      some (.ok (some 10000) ⟨[(10100, 3996)], [⟨10000, 4096, 256⟩], 4096, []⟩) :=
  ⟨by decide, by decide, by decide,
    (c1_allocate_tail listFreeList (okEnv 10000) optsHost 1 100 8
      ⟨[], [], 0, []⟩ [] 10000 4096 ⟨[], [⟨10000, 4096, 256⟩], 4096, []⟩ 0
      (by decide) (by decide) (by decide)).2 (by decide)⟩

/-! ### C6: device-synchronization deduplication -/

/-- Walking a batch whose resolved devices are all below 256 synchronizes
exactly the first occurrences that are not already in the mask, in
order. -/
theorem syncDeviceGo_dedup (current : Int) (params : List dealloc_params) :
    ∀ (dev_mask : List Int) (prev : Int) (acc : List Int),
    (∀ p ∈ params, resolveDev current p.sync_device < 256) →
    syncDeviceGo current params dev_mask prev acc =
      acc.reverse ++
        dedupFirstAux (params.map fun p => resolveDev current p.sync_device)
          dev_mask := by
  induction params with
  | nil => intro dev_mask prev acc _; simp [syncDeviceGo, dedupFirstAux]
  | cons par rest ih =>
    intro dev_mask prev acc h
    have hp : resolveDev current par.sync_device < 256 := h par (by simp)
    have hrest : ∀ p ∈ rest, resolveDev current p.sync_device < 256 :=
      fun p hp' => h p (by simp [hp'])
    simp only [syncDeviceGo, List.map_cons, dedupFirstAux, if_pos hp]
    by_cases hc : dev_mask.contains (resolveDev current par.sync_device) = true
    · simp only [hc, if_true]
      exact ih dev_mask prev acc hrest
    · simp only [hc, if_false, Bool.false_eq_true]
      rw [ih (resolveDev current par.sync_device :: dev_mask)
        (resolveDev current par.sync_device)
        (resolveDev current par.sync_device :: acc) hrest]
      simp

/-- C6 (amended): with `sync_scope == device`, for every batch whose
resolved device ids all lie in the bitset range (below 256), each distinct
device is synchronized exactly once, in order of first appearance
(first-occurrence deduplication); in particular the batch on devices
`{2, 2, 5, 2}` produces exactly the two synchronizations `[2, 5]`, in
arrival order.  (Device ids at or above 256 only fall back to a
comparison with the last synchronized device and can be synchronized more
than once — see the counterexample.) -/
theorem c6_sync_device_dedup (current : Int) :
    (∀ params : List dealloc_params,
      (∀ p ∈ params, 0 ≤ resolveDev current p.sync_device ∧
          resolveDev current p.sync_device < 256) →
      syncDeviceList current params =
        dedupFirst (params.map fun p => resolveDev current p.sync_device)) ∧
    syncDeviceList current
      [⟨2, 8, 16, 8⟩, ⟨2, 24, 16, 8⟩, ⟨5, 40, 16, 8⟩, ⟨2, 56, 16, 8⟩] =
      [2, 5] := by
  constructor
  · intro params h
    unfold syncDeviceList dedupFirst
    rw [syncDeviceGo_dedup current params [] (-1) [] (fun p hp => (h p hp).2)]
    simp
  · have h := syncDeviceGo_dedup current
      [⟨2, 8, 16, 8⟩, ⟨2, 24, 16, 8⟩, ⟨5, 40, 16, 8⟩, ⟨2, 56, 16, 8⟩]
      [] (-1) [] (by norm_num [resolveDev])
    unfold syncDeviceList
    rw [h]
    norm_num [resolveDev, dedupFirstAux]

/-- Counterexample for C6 as frozen: in the batch on devices
`{300, 2, 300}` the device 300 (at or above 256, hence outside the
bitset) is synchronized twice, because its occurrences are separated by a
sync on device 2; so not every distinct device of a batch is synchronized
exactly once. -/
theorem c6_sync_device_counterexample :
    syncDeviceList 0 [⟨300, 8, 16, 8⟩, ⟨2, 24, 16, 8⟩, ⟨300, 40, 16, 8⟩] =
      [300, 2, 300] ∧
    (syncDeviceList 0
      [⟨300, 8, 16, 8⟩, ⟨2, 24, 16, 8⟩, ⟨300, 40, 16, 8⟩]).count 300 = 2 := by
  decide

/-- Witness for C6: the dedup theorem applied to the `{2, 2, 5, 2}` batch
with current device 7. -/
theorem c6_sync_device_dedup_witness :
    (∀ p ∈ [(⟨2, 8, 16, 8⟩ : dealloc_params), ⟨2, 24, 16, 8⟩,
        ⟨5, 40, 16, 8⟩, ⟨2, 56, 16, 8⟩],
      0 ≤ resolveDev 7 p.sync_device ∧ resolveDev 7 p.sync_device < 256) ∧
    syncDeviceList 7
        [⟨2, 8, 16, 8⟩, ⟨2, 24, 16, 8⟩, ⟨5, 40, 16, 8⟩, ⟨2, 56, 16, 8⟩] =
      dedupFirst ([⟨2, 8, 16, 8⟩, ⟨2, 24, 16, 8⟩, ⟨5, 40, 16, 8⟩,
        (⟨2, 56, 16, 8⟩ : dealloc_params)].map fun p =>
          resolveDev 7 p.sync_device) :=
  ⟨by decide, (c6_sync_device_dedup 7).1 _ (by decide)⟩

/-! ### C2: the acquisition protocol terminates -/

/-- The initial block size computed by `next_block_size` is at least the
upcoming allocation size. -/
theorem next_block_size_ge {φ σ : Type} (opts : pool_options)
    (st : PoolState φ σ) (upcoming : Nat) :
    upcoming ≤ (next_block_size opts st upcoming).1 := by
  have h1 : upcoming ≤ Nat.max upcoming
      (growth_mul st.next_block_size_ opts.growth_factor) := Nat.le_max_left _ _
  have h2 := align_up_ge
    (Nat.max upcoming (growth_mul st.next_block_size_ opts.growth_factor))
    (1 <<< (Int.toNat (max ((ilog2 (Nat.max upcoming
      (growth_mul st.next_block_size_ opts.growth_factor)) : Int) - 10) 12)))
    (shiftLeft_one_pos _)
  exact le_trans h1 h2

/-- Fuel `blk_size - min_bytes + 2` (one less once the reclaim pass has
been tried) always suffices for the retry loop: each iteration either
exits, strictly shrinks `blk_size`, or performs the single reclaim
pass. -/
theorem gubLoop_total {φ σ : Type} (ops : FreeListOps φ) (env : Env σ)
    (opts : pool_options) (min_bytes alignment : Nat) :
    ∀ (fuel : Nat) (st : PoolState φ σ) (blk_size : Nat) (tried : Bool)
      (r : Nat), min_bytes ≤ blk_size →
      blk_size - min_bytes + (cond tried 1 2) ≤ fuel →
      (gubLoop ops env opts min_bytes alignment fuel st blk_size tried r).isSome := by
  intro fuel
  induction fuel with
  | zero =>
    intro st blk tried r hmin hf
    exfalso; cases tried <;> simp at hf
  | succ n ih =>
    intro st blk tried r hmin hf
    simp only [gubLoop]
    cases halloc : env.alloc st.env blk alignment with
    | some pu =>
      cases pu with
      | mk ptr u => by_cases hrec : env.record_fails u = true <;> simp [hrec]
    | none =>
      by_cases hs : opts.try_smaller_on_failure = true
      · by_cases hbm : blk = min_bytes
        · cases tried with
          | true => simp [hs, hbm]
          | false =>
            by_cases hret : opts.return_to_upstream_on_failure = true
            · by_cases hemp : ({ st with env := env.flush st.env } :
                  PoolState φ σ).blocks_.isEmpty = true
              · simp [hs, hbm, hret, hemp]
              · simp only [hs, hbm, hret, hemp, Bool.not_true, Bool.false_or,
                  Bool.not_false, if_true, if_false, ite_true, ite_false,
                  Bool.false_eq_true]
                split
                · simp
                · apply ih
                  · exact Nat.le_max_left _ _
                  · have hh : Nat.max min_bytes (min_bytes >>> 1) = min_bytes := by
                      rw [Nat.shiftRight_one]
                      exact Nat.max_eq_left (Nat.div_le_self _ _)
                    subst hbm
                    rw [hh]
                    simp only [cond] at hf ⊢
                    omega
            · simp [hs, hbm, hret]
        · have hlt : min_bytes < blk := by omega
          simp only [hs, hbm, Bool.not_true, if_false, ite_false, if_true,
            Bool.false_eq_true]
          apply ih
          · exact Nat.le_max_left _ _
          · rw [Nat.shiftRight_one]
            have h3 : Nat.max min_bytes (blk / 2) < blk :=
              Nat.max_lt.mpr ⟨hlt, Nat.div_lt_self (by omega) (by omega)⟩
            have h1 : min_bytes ≤ Nat.max min_bytes (blk / 2) :=
              Nat.le_max_left _ _
            cases tried <;> simp only [cond] at hf ⊢ <;> omega
      · have hs' : opts.try_smaller_on_failure = false := by
          cases h : opts.try_smaller_on_failure
          · rfl
          · exact absurd h hs
        simp [hs']

/-- The loop performs at most one reclaim pass beyond those already
counted: once `tried_return_to_upstream` is set no further pass runs. -/
theorem gubLoop_reclaims_le {φ σ : Type} (ops : FreeListOps φ) (env : Env σ)
    (opts : pool_options) (min_bytes alignment : Nat) :
    ∀ (fuel : Nat) (st : PoolState φ σ) (blk_size : Nat) (tried : Bool)
      (r : Nat) (out : GubOut φ σ),
      gubLoop ops env opts min_bytes alignment fuel st blk_size tried r =
        some out →
      out.reclaims ≤ r + (cond tried 0 1) := by
  intro fuel
  induction fuel with
  | zero => intro st blk tried r out h; exact absurd h (by simp [gubLoop])
  | succ n ih =>
    intro st blk tried r out h
    simp only [gubLoop] at h
    cases halloc : env.alloc st.env blk alignment with
    | some pu =>
      cases pu with
      | mk ptr u =>
        rw [halloc] at h
        by_cases hrec : env.record_fails u = true <;>
          simp [hrec] at h <;> subst h <;> simp [GubOut.reclaims]
    | none =>
      rw [halloc] at h
      by_cases hs : opts.try_smaller_on_failure = true
      · by_cases hbm : blk = min_bytes
        · cases tried with
          | true =>
            simp [hs, hbm] at h
            subst h; simp [GubOut.reclaims]
          | false =>
            by_cases hret : opts.return_to_upstream_on_failure = true
            · by_cases hemp : ({ st with env := env.flush st.env } :
                  PoolState φ σ).blocks_.isEmpty = true
              · simp [hs, hbm, hret, hemp] at h
                subst h; simp [GubOut.reclaims]
              · simp only [hs, hbm, hret, hemp, Bool.not_true, Bool.false_or,
                  Bool.not_false, if_true, if_false, ite_true, ite_false,
                  Bool.false_eq_true] at h
                split at h
                · cases h; simp [GubOut.reclaims]
                · have := ih _ _ _ _ _ h
                  simp only [cond] at this ⊢
                  omega
            · simp [hs, hbm, hret] at h
              subst h; simp [GubOut.reclaims]
        · simp only [hs, hbm, Bool.not_true, if_false, ite_false, if_true,
            Bool.false_eq_true] at h
          exact ih _ _ _ _ _ h
      · have hs' : opts.try_smaller_on_failure = false := by
          cases hb : opts.try_smaller_on_failure
          · rfl
          · exact absurd hb hs
        simp [hs'] at h
        subst h; simp [GubOut.reclaims]

/-- C2: with enough fuel — `initial blk_size + 2`, computable from the
state — the acquisition protocol always yields a result (it cannot loop),
for every free list, upstream behavior and option settings; the result
performs at most one reclaim pass; and once the reclaim pass has been
tried, a further upstream failure at the minimum size makes the call fail
with an allocation error in one step instead of looping. -/
theorem c2_get_upstream_block_terminates {φ σ : Type} (ops : FreeListOps φ)
    (env : Env σ) (opts : pool_options) (fuel : Nat) (st : PoolState φ σ)
    (min_bytes alignment : Nat)
    (hfuel : (next_block_size opts st min_bytes).1 + 2 ≤ fuel) :
    (∃ out, get_upstream_block ops env opts fuel st min_bytes alignment =
        some out ∧ out.reclaims ≤ 1) ∧
    (∀ (f : Nat) (st' : PoolState φ σ) (r : Nat), 1 ≤ f →
      env.alloc st'.env min_bytes alignment = none →
      opts.try_smaller_on_failure = true →
      gubLoop ops env opts min_bytes alignment f st' min_bytes true r =
        some (.err .badAlloc { st' with env := env.flush st'.env } r)) := by
  constructor
  · have hmin := next_block_size_ge opts st min_bytes
    have htot := gubLoop_total ops env opts min_bytes alignment fuel
      (next_block_size opts st min_bytes).2
      (next_block_size opts st min_bytes).1 false 0 hmin
      (by simp only [cond]; omega)
    unfold get_upstream_block
    cases hout : gubLoop ops env opts min_bytes alignment fuel
        (next_block_size opts st min_bytes).2
        (next_block_size opts st min_bytes).1 false 0 with
    | none => rw [hout] at htot; exact absurd htot (by simp)
    | some out =>
      refine ⟨out, rfl, ?_⟩
      have := gubLoop_reclaims_le ops env opts min_bytes alignment fuel
        _ _ _ _ _ hout
      simpa using this
  · intro f st' r hf1 hfail hs
    cases f with
    | zero => omega
    | succ k => simp [gubLoop, hfail, hs]

/-- Witness for C2: an always-failing upstream, cursor 4096, request 4096
(initial `blk_size` is 8192), fuel 8194. -/
theorem c2_get_upstream_block_terminates_witness :
    (next_block_size optsHost
        (⟨[], [], 4096, ()⟩ : PoolState (List (Nat × Nat)) Unit) 4096).1 + 2 ≤
      8194 ∧
    ((∃ out, get_upstream_block listFreeList failEnv optsHost 8194
        ⟨[], [], 4096, ()⟩ 4096 256 = some out ∧ out.reclaims ≤ 1) ∧
     (∀ (f : Nat) (st' : PoolState (List (Nat × Nat)) Unit) (r : Nat), 1 ≤ f →
        failEnv.alloc st'.env 4096 256 = none →
        optsHost.try_smaller_on_failure = true →
        gubLoop listFreeList failEnv optsHost 4096 256 f st' 4096 true r =
          some (.err .badAlloc { st' with env := failEnv.flush st'.env } r))) :=
  ⟨by decide, c2_get_upstream_block_terminates listFreeList failEnv optsHost
    8194 ⟨[], [], 4096, ()⟩ 4096 256 (by decide)⟩

/-! ### C5: backpressure on outstanding deferred deallocations -/

/-- Default device pool options with deferred deallocation enabled and a
backpressure threshold of 1 (for concrete runs). -/
def optsDefer : pool_options :=
  ⟨2 ^ 28, 4096, (2 : ℚ), true, true, .device, true, 1, 256⟩

/-- The queue-state bound threaded through an allocation: the outstanding
count and the active-queue length both stay at or below `B`. -/
def queueBound (B : Nat) (q : DefQueues) : Prop :=
  outstanding_dealloc_count q ≤ B ∧ q.active.length ≤ B

/-- One batch completion never raises the bound: the new count is the old
count, the active-queue length, or zero. -/
theorem flush_preserves_queueBound (B : Nat) (q : DefQueues)
    (h : queueBound B q) : queueBound B (flush_deferred_model q).1 := by
  unfold flush_deferred_model
  by_cases h0 : no_pending_deallocs q = true
  · simpa [h0]
  · by_cases h1 : q.inflight.isEmpty = true
    · have h1' : q.inflight = [] := by
        cases hi : q.inflight
        · rfl
        · rw [hi] at h1; exact absurd h1 (by simp)
      simp only [h0, h1, if_true, if_false, Bool.false_eq_true]
      exact ⟨by simp [outstanding_dealloc_count, h1'], by simp⟩
    · have h1' : ¬ q.inflight.isEmpty = true := h1
      simp only [h0, h1, if_false, Bool.false_eq_true]
      refine ⟨?_, h.2⟩
      have := h.2
      simp only [outstanding_dealloc_count, List.length_nil] at *
      omega

/-- Entering a flush from any queue state bounds the count by the
active-queue length (or leaves an already-empty state): this is the first
step of the backpressure path of `allocate`. -/
theorem flush_queueBound_entry (M : Nat) (q : DefQueues) :
    queueBound (Nat.max q.active.length M) (flush_deferred_model q).1 := by
  unfold flush_deferred_model
  by_cases h0 : no_pending_deallocs q = true
  · have ha : q.active = [] := by
      cases hi : q.active
      · rfl
      · unfold no_pending_deallocs at h0; rw [hi] at h0; simp at h0
    have hf : q.inflight = [] := by
      cases hi : q.inflight
      · rfl
      · unfold no_pending_deallocs at h0; rw [hi] at h0; simp at h0
    simp [h0, queueBound, outstanding_dealloc_count, ha, hf]
  · by_cases h1 : q.inflight.isEmpty = true
    · have h1' : q.inflight = [] := by
        cases hi : q.inflight
        · rfl
        · rw [hi] at h1; exact absurd h1 (by simp)
      simp [h0, h1, queueBound, outstanding_dealloc_count, h1']
    · simp only [h0, h1, if_false, Bool.false_eq_true]
      refine ⟨?_, Nat.le_max_left _ _⟩
      simp only [outstanding_dealloc_count, List.length_nil]
      simp [Nat.le_max_left q.active.length M]

/-- Folding upstream deallocations preserves any environment invariant
preserved by a single deallocation. -/
theorem foldl_dealloc_invariant {σ : Type} (env : Env σ) (P : σ → Prop)
    (hd : ∀ u p b a, P u → P (env.dealloc u p b a)) :
    ∀ (l : List UpstreamBlock) (u : σ), P u →
      P (l.foldl (fun e b => env.dealloc e b.ptr b.bytes b.alignment) u) := by
  intro l
  induction l with
  | nil => intro u hu; exact hu
  | cons b rest ih =>
    intro u hu
    rw [List.foldl_cons]
    exact ih _ (hd _ _ _ _ hu)

/-- Any property of the environment state preserved by the three
environment operations is an invariant of the retry loop. -/
theorem gubLoop_env_invariant {φ σ : Type} (ops : FreeListOps φ)
    (env : Env σ) (opts : pool_options) (min_bytes alignment : Nat)
    (P : σ → Prop)
    (hal : ∀ (u : σ) (blk a ptr : Nat) (u' : σ),
      env.alloc u blk a = some (ptr, u') → P u → P u')
    (hd : ∀ u p b a, P u → P (env.dealloc u p b a))
    (hfl : ∀ u, P u → P (env.flush u)) :
    ∀ (fuel : Nat) (st : PoolState φ σ) (blk : Nat) (tried : Bool) (r : Nat)
      (out : GubOut φ σ),
      gubLoop ops env opts min_bytes alignment fuel st blk tried r = some out →
      P st.env → P out.state.env := by
  intro fuel
  induction fuel with
  | zero => intro st blk tried r out h; exact absurd h (by simp [gubLoop])
  | succ n ih =>
    intro st blk tried r out h hP
    simp only [gubLoop] at h
    cases halloc : env.alloc st.env blk alignment with
    | some pu =>
      cases pu with
      | mk ptr u =>
        rw [halloc] at h
        have hPu : P u := hal _ _ _ _ _ halloc hP
        by_cases hrec : env.record_fails u = true <;>
          simp [hrec] at h <;> subst h <;> simp [GubOut.state]
        · exact hd _ _ _ _ hPu
        · exact hPu
    | none =>
      rw [halloc] at h
      have hP1 : P (env.flush st.env) := hfl _ hP
      by_cases hs : opts.try_smaller_on_failure = true
      · by_cases hbm : blk = min_bytes
        · cases tried with
          | true =>
            simp [hs, hbm] at h
            subst h; exact hP1
          | false =>
            by_cases hret : opts.return_to_upstream_on_failure = true
            · by_cases hemp : ({ st with env := env.flush st.env } :
                  PoolState φ σ).blocks_.isEmpty = true
              · simp [hs, hbm, hret, hemp] at h
                subst h; exact hP1
              · simp only [hs, hbm, hret, hemp, Bool.not_true, Bool.false_or,
                  Bool.not_false, if_true, if_false, ite_true, ite_false,
                  Bool.false_eq_true] at h
                split at h
                · cases h; exact hP1
                · exact ih _ _ _ _ _ h
                    (foldl_dealloc_invariant env P hd _ _ hP1)
            · simp [hs, hbm, hret] at h
              subst h; exact hP1
        · simp only [hs, hbm, Bool.not_true, if_false, ite_false, if_true,
            Bool.false_eq_true] at h
          exact ih _ _ _ _ _ h hP1
      · have hs' : opts.try_smaller_on_failure = false := by
          cases hb : opts.try_smaller_on_failure
          · rfl
          · exact absurd hb hs
        simp [hs'] at h
        subst h; exact hP1

/-- The same environment invariant carries through `do_allocate`. -/
theorem do_allocate_env_invariant {φ σ : Type} (ops : FreeListOps φ)
    (env : Env σ) (opts : pool_options) (P : σ → Prop)
    (hal : ∀ (u : σ) (blk a ptr : Nat) (u' : σ),
      env.alloc u blk a = some (ptr, u') → P u → P u')
    (hd : ∀ u p b a, P u → P (env.dealloc u p b a))
    (hfl : ∀ u, P u → P (env.flush u))
    (fuel bytes alignment : Nat) (st : PoolState φ σ) (out : AllocOut φ σ)
    (h : do_allocate ops env opts fuel bytes alignment st = some out)
    (hP : P st.env) : P out.state.env := by
  simp only [do_allocate] at h
  by_cases hb : bytes = 0
  · simp [hb] at h
    subst h; exact hP
  · simp only [hb, if_false, ite_false, Bool.false_eq_true] at h
    cases hget : (ops.get st.free_list_ bytes alignment).1 with
    | some ptr =>
      rw [hget] at h
      simp at h
      subst h; exact hP
    | none =>
      rw [hget] at h
      simp only [] at h
      cases hgub : get_upstream_block ops env opts fuel
          { st with free_list_ := (ops.get st.free_list_ bytes alignment).2 }
          bytes (Nat.max alignment opts.upstream_alignment) with
      | none => rw [hgub] at h; exact absurd h (by simp)
      | some gout =>
        rw [hgub] at h
        have hPg : P gout.state.env := by
          unfold get_upstream_block at hgub
          exact gubLoop_env_invariant ops env opts bytes
            (Nat.max alignment opts.upstream_alignment) P hal hd hfl _ _ _ _ _ _
            hgub hP
        cases gout with
        | ok ptr blk st' r =>
          simp only [GubOut.state] at hPg
          by_cases he : blk = bytes <;> simp [he] at h <;> subst h <;>
            simpa [AllocOut.state]
        | err e st' r =>
          simp only [GubOut.state] at hPg
          simp at h
          subst h; exact hPg

/-- The lifted environment operations preserve any queue property that is
preserved by one batch completion. -/
theorem liftEnv_invariant_hyps {σ : Type} (env : Env σ)
    (Q : DefQueues → Prop)
    (hflush : ∀ q, Q q → Q (flush_deferred_model q).1) :
    (∀ (u : σ × DefQueues) (blk a ptr : Nat) (u' : σ × DefQueues),
        (liftEnv env).alloc u blk a = some (ptr, u') → Q u.2 → Q u'.2) ∧
    (∀ (u : σ × DefQueues) (p b a : Nat),
        Q u.2 → Q ((liftEnv env).dealloc u p b a).2) ∧
    (∀ u : σ × DefQueues, Q u.2 → Q ((liftEnv env).flush u).2) := by
  refine ⟨?_, ?_, ?_⟩
  · intro u blk a ptr u' h hq
    cases hu : env.alloc u.1 blk a with
    | none => simp [liftEnv, hu] at h
    | some pw =>
      cases pw with
      | mk p w =>
        simp [liftEnv, hu] at h
        rcases h with ⟨h1, h2⟩
        subst h2
        exact hq
  · intro u p b a hq
    exact hq
  · intro u hq
    exact hflush _ hq

/-- C5 (amended): when deferred deallocation is enabled, immediately after
any `allocate` call returns, the outstanding deferred-deallocation count
is at most the larger of the threshold and the length of the queue the
producers were filling when `allocate` was called.  (The strict bound
`outstanding_dealloc_count() ≤ max_outstanding_deallocations` fails —
see the counterexample — because `flush_deferred` waits for only one
batch: when both queues are non-empty, completing the in-flight batch
still leaves the whole untouched active queue outstanding.) -/
theorem c5_backpressure_bound {φ σ : Type} (ops : FreeListOps φ)
    (env : Env σ) (opts : pool_options) (fuel bytes alignment : Nat)
    (st : PoolState φ (σ × DefQueues)) (out : AllocOut φ (σ × DefQueues))
    (hen : opts.enable_deferred_deallocation = true)
    (hout : deferred_do_allocate ops env opts fuel bytes alignment st =
      some out) :
    outstanding_dealloc_count out.state.env.2 ≤
      Nat.max st.env.2.active.length opts.max_outstanding_deallocations := by
  obtain ⟨hal, hd, hfl⟩ := liftEnv_invariant_hyps env
    (queueBound (Nat.max st.env.2.active.length
      opts.max_outstanding_deallocations))
    (flush_preserves_queueBound _)
  unfold deferred_do_allocate at hout
  by_cases hc : opts.max_outstanding_deallocations <
      outstanding_dealloc_count st.env.2
  · have hcond : (opts.enable_deferred_deallocation &&
        decide (opts.max_outstanding_deallocations <
          outstanding_dealloc_count st.env.2)) = true := by
      simp [hen, hc]
    simp only [hcond, if_true, ite_true] at hout
    have hq : queueBound
        (Nat.max st.env.2.active.length opts.max_outstanding_deallocations)
        ((st.env.1, (flush_deferred_model st.env.2).1) : σ × DefQueues).2 :=
      flush_queueBound_entry _ _
    exact (do_allocate_env_invariant ops (liftEnv env) opts _ hal hd hfl
      fuel bytes alignment _ out hout hq).1
  · have hcond : (opts.enable_deferred_deallocation &&
        decide (opts.max_outstanding_deallocations <
          outstanding_dealloc_count st.env.2)) = false := by
      simp [hen, hc]
    simp only [hcond, if_false, ite_false, Bool.false_eq_true] at hout
    have hq : queueBound
        (Nat.max st.env.2.active.length opts.max_outstanding_deallocations)
        st.env.2 :=
      ⟨le_trans (Nat.le_of_not_lt hc) (Nat.le_max_right _ _),
        Nat.le_max_left _ _⟩
    exact (do_allocate_env_invariant ops (liftEnv env) opts _ hal hd hfl
      fuel bytes alignment _ out hout hq).1

/-- Counterexample for C5 as frozen: with threshold 1, an active queue of
two entries and one in-flight entry (count 3 > 1), `allocate` flushes —
completing the in-flight batch — and then returns from the free list, yet
immediately afterwards the outstanding count is 2, still above the
threshold.  So `outstanding_dealloc_count() ≤ max_outstanding_deallocations`
does not hold immediately after every `allocate` when deferred
deallocation is enabled. -/
theorem c5_backpressure_counterexample :
    deferred_do_allocate listFreeList failEnv optsDefer 1 10 8
        (⟨[(100, 50)], [], 4096,
          ((), ⟨[⟨0, 1, 1, 1⟩, ⟨0, 2, 1, 1⟩], [⟨0, 3, 1, 1⟩], true⟩)⟩ :
          PoolState (List (Nat × Nat)) (Unit × DefQueues)) =
      some (.ok (some 100)
        ⟨[], [], 4096, ((), ⟨[⟨0, 1, 1, 1⟩, ⟨0, 2, 1, 1⟩], [], true⟩)⟩) ∧
    outstanding_dealloc_count ⟨[⟨0, 1, 1, 1⟩, ⟨0, 2, 1, 1⟩], [], true⟩ = 2 ∧
    optsDefer.max_outstanding_deallocations = 1 ∧
    optsDefer.enable_deferred_deallocation = true := by
  decide

/-- Witness for C5 (amended): a run with the same threshold whose active
queue holds two entries; after `allocate` the count (2) is within
`max(active length 2, threshold 1)`. -/
theorem c5_backpressure_bound_witness :
    optsDefer.enable_deferred_deallocation = true ∧
    deferred_do_allocate listFreeList failEnv optsDefer 1 10 8
        (⟨[(100, 50)], [], 4096,
          ((), ⟨[⟨0, 1, 1, 1⟩, ⟨0, 2, 1, 1⟩], [⟨0, 3, 1, 1⟩], true⟩)⟩ :
          PoolState (List (Nat × Nat)) (Unit × DefQueues)) =
      some (.ok (some 100)
        ⟨[], [], 4096, ((), ⟨[⟨0, 1, 1, 1⟩, ⟨0, 2, 1, 1⟩], [], true⟩)⟩) ∧
    outstanding_dealloc_count
        (AllocOut.state (.ok (some 100)
          (⟨[], [], 4096, ((), ⟨[⟨0, 1, 1, 1⟩, ⟨0, 2, 1, 1⟩], [], true⟩)⟩ :
            PoolState (List (Nat × Nat)) (Unit × DefQueues)))).env.2 ≤
      Nat.max
        (List.length [(⟨0, 1, 1, 1⟩ : dealloc_params), ⟨0, 2, 1, 1⟩])
        optsDefer.max_outstanding_deallocations :=
  ⟨rfl, by decide,
    c5_backpressure_bound listFreeList failEnv optsDefer 1 10 8
      ⟨[(100, 50)], [], 4096,
        ((), ⟨[⟨0, 1, 1, 1⟩, ⟨0, 2, 1, 1⟩], [⟨0, 3, 1, 1⟩], true⟩)⟩
      (.ok (some 100)
        ⟨[], [], 4096, ((), ⟨[⟨0, 1, 1, 1⟩, ⟨0, 2, 1, 1⟩], [], true⟩)⟩)
      rfl (by decide)⟩

end DaliMM
